import Mathlib

/-!
Verification of the Sync & Cache Reconciliation Engine of the
smart_off_plan_backend repository.

The TypeScript sources are shallowly embedded as Lean definitions:
* `PropertyRecord` models the mongoose `Property` document (new schema;
  only the fields the engine reasons about are kept; the omitted scalar
  fields — area_unit, cover_image_url, price_currency, completion_datetime,
  coordinates, description — are merged with exactly the same JS `||`
  pattern as `name`/`area`/`developer` and play no role in any claim).
* Timestamps are integers (milliseconds since epoch, as JS `Date.getTime()`).
* Upstream responses are supplied as explicit oracle arguments (a function
  from attempt/page number to the outcome axios would produce), so the
  retry loop and the pagination walk become pure recursive functions.
* JS truthiness is modelled explicitly: `Option` with `none` for
  null/undefined; for string fields merged with `||`, the empty string is
  also falsy, which `jsOrStr` reproduces.
-/

/-- Character-list prefix test, used to model JS `String.prototype.includes`. -/
def strMatchFront : List Char → List Char → Bool
  | [], _ => true
  | _ :: _, [] => false
  | p :: ps, c :: cs => p == c && strMatchFront ps cs

/-- Substring occurrence on character lists. -/
def strContainsList : List Char → List Char → Bool
  | [], pat => pat.isEmpty
  | c :: rest, pat => strMatchFront pat (c :: rest) || strContainsList rest pat

/-- JS `s.includes(pat)`: substring containment. -/
def strContains (s pat : String) : Bool :=
  strContainsList s.toList pat.toList

/-- One insertion step of JS `Set` construction: keep first occurrence. -/
def insertDistinct (acc : List String) (x : String) : List String :=
  if acc.contains x then acc else acc ++ [x]

/-- JS `[...new Set(l)]`: deduplicate keeping first-occurrence order. -/
def jsSetOfList (l : List String) : List String :=
  l.foldl insertDistinct []

/-- JS `x || d` for an optional string field: null/undefined and the empty
string fall back to the default. -/
def jsOrStr (x : Option String) (d : String) : String :=
  match x with
  | some s => if s = "" then d else s
  | none => d

/-- JS `x ?? y` on optional values (nullish coalescing keeps `0`/`false`). -/
def jsCoalesce {α : Type} (x : Option α) (y : Option α) : Option α :=
  match x with
  | some v => some v
  | none => y

/-- JS `x || null` on an optional number: `0` collapses to null. -/
def jsOrNullInt (x : Option Int) : Option Int :=
  match x with
  | some v => if v = 0 then none else some v
  | none => none

/-- The upstream detail payload (`propertyData` from `/v1/properties/{id}`).
`facilities` and `architecture` are modelled by their array lengths (the code
only reads `.length` after an `Array.isArray` guard; a missing or non-array
field behaves as length 0). -/
structure PropertyDetail where
  id : Nat
  name : Option String
  area : Option String
  developer : Option String
  status : Option String
  sale_status : Option String
  is_partner_project : Option Bool
  min_price : Option Int
  max_price : Option Int
  facilities : Nat
  architecture : Nat
deriving DecidableEq

/-- The cached `Property` document (new schema, `src/models/Property.ts`). -/
structure PropertyRecord where
  externalId : Nat
  name : String
  area : String
  developer : String
  is_partner_project : Bool
  min_price : Option Int
  max_price : Option Int
  sale_status : String
  status : String
  featured : Bool
  pendingReview : Bool
  featureReason : List String
  reelly_status : Bool
  lastFeaturedAt : Option Int
  completePropertyData : Option PropertyDetail
  lastFetchedAt : Int
  cacheExpiresAt : Int
deriving DecidableEq

/-- Model of `PropertySchema.methods.isExpired`: `new Date() > this.cacheExpiresAt`. -/
def isExpired (p : PropertyRecord) (now : Int) : Bool :=
  decide (now > p.cacheExpiresAt)

/-- Model of `PropertySchema.methods.refreshCache(hours = 24)`. -/
def refreshCache (hours : Int) (now : Int) (p : PropertyRecord) : PropertyRecord :=
  { p with lastFetchedAt := now, cacheExpiresAt := now + hours * 60 * 60 * 1000 }

/-- The premium-area list of `PropertySyncService.analyzeFeaturingPotential`. -/
def premiumAreasSync : List String :=
  ["Downtown Dubai", "Dubai Marina", "Palm Jumeirah", "Business Bay", "DIFC"]

/-- The candidate feature signals computed by
`PropertySyncService.analyzeFeaturingPotential`, in source order. They are a
function of the upstream detail payload only. -/
def computeFeatureReasons (d : PropertyDetail) : List String :=
  (if d.is_partner_project = some true then ["is_partner_project"] else []) ++
  (if d.facilities ≥ 10 then ["facilities.length >= 10"] else []) ++
  (if d.architecture ≥ 5 then ["architecture.length >= 5"] else []) ++
  (if (match d.area with
       | some a => a ≠ "" && premiumAreasSync.any (fun pa => strContains a pa)
       | none => false)
   then ["premium_location"] else [])

/-- Model of `PropertySyncService.analyzeFeaturingPotential`: if any signal matched,
merge it into `featureReason` via `[...new Set([...old, ...reasons])]`;
no other field is touched. -/
def analyzeFeaturingPotential (p : PropertyRecord) (d : PropertyDetail) : PropertyRecord :=
  let reasons := computeFeatureReasons d
  if reasons.isEmpty then p
  else { p with featureReason := jsSetOfList (p.featureReason ++ reasons) }

theorem foldl_insertDistinct_mem (l : List String) (acc : List String) (x : String) :
    x ∈ l.foldl insertDistinct acc ↔ x ∈ acc ∨ x ∈ l := by
  induction l generalizing acc with
  | nil => simp
  | cons a as ih =>
    simp only [List.foldl_cons, ih, insertDistinct, List.mem_cons]
    by_cases h : acc.contains a
    · simp only [if_pos h]
      constructor
      · rintro (hx | hx)
        · exact Or.inl hx
        · exact Or.inr (Or.inr hx)
      · rintro (hx | hx | hx)
        · exact Or.inl hx
        · exact Or.inl (hx ▸ (by simpa using h : a ∈ acc))
        · exact Or.inr hx
    · simp only [if_neg h, List.mem_append, List.mem_singleton]
      tauto

theorem jsSetOfList_mem (l : List String) (x : String) :
    x ∈ jsSetOfList l ↔ x ∈ l := by
  simp [jsSetOfList, foldl_insertDistinct_mem]

theorem analyzeFeaturingPotential_status (p : PropertyRecord) (d : PropertyDetail) :
    (analyzeFeaturingPotential p d).status = p.status := by
  unfold analyzeFeaturingPotential
  by_cases h : (computeFeatureReasons d).isEmpty <;> simp [h]

theorem analyzeFeaturingPotential_featured (p : PropertyRecord) (d : PropertyDetail) :
    (analyzeFeaturingPotential p d).featured = p.featured := by
  unfold analyzeFeaturingPotential
  by_cases h : (computeFeatureReasons d).isEmpty <;> simp [h]

theorem analyzeFeaturingPotential_lastFeaturedAt (p : PropertyRecord) (d : PropertyDetail) :
    (analyzeFeaturingPotential p d).lastFeaturedAt = p.lastFeaturedAt := by
  unfold analyzeFeaturingPotential
  by_cases h : (computeFeatureReasons d).isEmpty <;> simp [h]

theorem analyzeFeaturingPotential_reelly (p : PropertyRecord) (d : PropertyDetail) :
    (analyzeFeaturingPotential p d).reelly_status = p.reelly_status := by
  unfold analyzeFeaturingPotential
  by_cases h : (computeFeatureReasons d).isEmpty <;> simp [h]

theorem analyzeFeaturingPotential_timestamps (p : PropertyRecord) (d : PropertyDetail) :
    (analyzeFeaturingPotential p d).lastFetchedAt = p.lastFetchedAt ∧
    (analyzeFeaturingPotential p d).cacheExpiresAt = p.cacheExpiresAt := by
  unfold analyzeFeaturingPotential
  by_cases h : (computeFeatureReasons d).isEmpty <;> simp [h]

theorem analyzeFeaturingPotential_featureReason_mem (p : PropertyRecord)
    (d : PropertyDetail) (s : String) :
    s ∈ (analyzeFeaturingPotential p d).featureReason ↔
      s ∈ p.featureReason ∨ s ∈ computeFeatureReasons d := by
  unfold analyzeFeaturingPotential
  by_cases h : (computeFeatureReasons d).isEmpty
  · rw [List.isEmpty_iff] at h
    simp [h]
  · simp only [h, if_neg, Bool.false_eq_true, not_false_iff]
    simp [jsSetOfList_mem]

/-- The cycle statistics object (`PropertySyncStats`, timestamps omitted). -/
structure SyncStats where
  totalProcessed : Nat
  newProperties : Nat
  updatedProperties : Nat
  skippedDuplicates : Nat
  markedInactive : Nat
  errors : Nat
deriving DecidableEq

/-- Outcome of `fetchPropertyDetails(propertyId)`: the detail payload, `null`
(a 404 after retries, or an unrecognised response shape), or a rethrown
non-404 error. -/
inductive DetailResult where
  | found (d : PropertyDetail)
  | notFound
  | apiError (msg : String)
deriving DecidableEq

/-- Outcome of `processProperty`: normal return, or a thrown exception that
propagates to `processBatch` (carrying the store and stats as already
mutated). -/
inductive ProcessOutcome where
  | ok (store : List PropertyRecord) (stats : SyncStats)
  | threw (msg : String) (store : List PropertyRecord) (stats : SyncStats)
deriving DecidableEq

/-- Store slice visible after a `processProperty` call, normal or thrown. -/
def outcomeStore : ProcessOutcome → List PropertyRecord
  | .ok store _ => store
  | .threw _ store _ => store

/-- Model of `Property.findByExternalId(pid)` on the modelled store. -/
def findByExternalId (store : List PropertyRecord) (pid : Nat) : Option PropertyRecord :=
  store.find? (fun p => p.externalId == pid)

/-- Mongoose `save()` of a modified document: every stored record with the
same `externalId` is replaced (the schema declares `externalId` unique). -/
def replaceById (store : List PropertyRecord) (pid : Nat) (q : PropertyRecord) :
    List PropertyRecord :=
  store.map (fun r => if r.externalId == pid then q else r)

/-- The reactivation performed inside the skip branch of `processProperty`
when the cached record was previously marked absent upstream. -/
def reactivateOnSkip (p : PropertyRecord) (now : Int) : PropertyRecord :=
  { p with reelly_status := true, lastFetchedAt := now }

/-- Model of `PropertySyncService.createProperty` (the document built by
`new Property({...})`, before `analyzeFeaturingPotential` runs on it). -/
def createBase (d : PropertyDetail) (now : Int) : PropertyRecord :=
  { externalId := d.id
    name := jsOrStr d.name "Unknown Property"
    area := jsOrStr d.area "Unknown Area"
    developer := jsOrStr d.developer "Unknown Developer"
    is_partner_project := (jsCoalesce (d.is_partner_project.bind
      (fun b => if b then some true else none)) (some false)).getD false
    min_price := jsOrNullInt d.min_price
    max_price := jsOrNullInt d.max_price
    sale_status := jsOrStr d.sale_status (jsOrStr d.status "Available")
    status := "active"
    featured := false
    pendingReview := false
    featureReason := []
    reelly_status := true
    lastFeaturedAt := none
    completePropertyData := some d
    lastFetchedAt := now
    cacheExpiresAt := now + 24 * 60 * 60 * 1000 }

/-- Model of `PropertySyncService.createProperty`: build the document, then analyse
featuring potential, then save. -/
def createProperty (d : PropertyDetail) (now : Int) : PropertyRecord :=
  analyzeFeaturingPotential (createBase d now) d

/-- The field merge performed by `PropertySyncService.updateProperty`:
string fields use JS `||` (null/undefined/empty keep the old value), numeric
and boolean fields use `??`; then `completePropertyData` is overwritten,
`reelly_status` set true and `refreshCache(24)` called. -/
def mergeUpdate (p : PropertyRecord) (d : PropertyDetail) : PropertyRecord :=
  { p with
    name := jsOrStr d.name p.name
    area := jsOrStr d.area p.area
    developer := jsOrStr d.developer p.developer
    is_partner_project := (jsCoalesce d.is_partner_project
      (some p.is_partner_project)).getD false
    min_price := jsCoalesce d.min_price p.min_price
    max_price := jsCoalesce d.max_price p.max_price
    sale_status := jsOrStr d.sale_status (jsOrStr d.status p.sale_status)
    completePropertyData := some d
    reelly_status := true }

/-- Model of `PropertySyncService.updateProperty` on an existing record. -/
def updateProperty (p : PropertyRecord) (d : PropertyDetail) (now : Int) : PropertyRecord :=
  analyzeFeaturingPotential (refreshCache 24 now (mergeUpdate p d)) d

/-- Model of `PropertySyncService.processProperty(propertyId, stats)`. The outcome of
the detail fetch (which only happens when the record is absent or expired) is
passed as the oracle argument `detail`. -/
def processProperty (store : List PropertyRecord) (pid : Nat) (stats : SyncStats)
    (detail : DetailResult) (now : Int) : ProcessOutcome :=
  let stats1 := { stats with totalProcessed := stats.totalProcessed + 1 }
  match findByExternalId store pid with
  | some existing =>
    if isExpired existing now = false then
      let stats2 := { stats1 with skippedDuplicates := stats1.skippedDuplicates + 1 }
      if existing.reelly_status = false then
        .ok (replaceById store pid (reactivateOnSkip existing now)) stats2
      else
        .ok store stats2
    else
      match detail with
      | .apiError m => .threw m store stats1
      | .notFound => .ok store stats1
      | .found d =>
        .ok (replaceById store pid (updateProperty existing d now))
          { stats1 with updatedProperties := stats1.updatedProperties + 1 }
  | none =>
    match detail with
    | .apiError m => .threw m store stats1
    | .notFound => .ok store stats1
    | .found d =>
      .ok (store ++ [createProperty d now])
        { stats1 with newProperties := stats1.newProperties + 1 }

/-- True exactly when `processProperty(pid)` reaches the detail fetch:
the record is absent, or present but expired. -/
def detailFetchOccurs (store : List PropertyRecord) (pid : Nat) (now : Int) : Bool :=
  match findByExternalId store pid with
  | none => true
  | some p => isExpired p now

/-- The per-record test of `markInactiveProperties`: currently flagged
present upstream (`reelly_status: true`) and absent from the identifier list
collected this cycle. -/
def shouldMarkInactive (ids : List Nat) (p : PropertyRecord) : Bool :=
  p.reelly_status && !(ids.contains p.externalId)

/-- The update `markInactiveProperties` applies to one stored record:
records it selects get `reelly_status: false` and a fresh `lastFetchedAt`;
all others are untouched. -/
def sweepRecord (ids : List Nat) (now : Int) (p : PropertyRecord) : PropertyRecord :=
  if shouldMarkInactive ids p then
    { p with reelly_status := false, lastFetchedAt := now }
  else p

/-- Model of `PropertySyncService.markInactiveProperties(activePropertyIds)`: load the
records with `reelly_status: true`, keep those whose `externalId` is not in
the collected list, and flip each to inactive (per-document `updateOne`). -/
def markInactiveProperties (store : List PropertyRecord) (ids : List Nat) (now : Int) :
    List PropertyRecord :=
  store.map (sweepRecord ids now)

/-- The `markedCount` returned by `markInactiveProperties`. -/
def markInactiveCount (store : List PropertyRecord) (ids : List Nat) : Nat :=
  (store.filter (shouldMarkInactive ids)).length

/-- A minimal concrete stored record used in witnesses and counterexamples. -/
def baseRecord (eid : Nat) (reelly : Bool) (fetched expires : Int) : PropertyRecord :=
  { externalId := eid, name := "P", area := "A", developer := "D",
    is_partner_project := false, min_price := none, max_price := none,
    sale_status := "Available", status := "active", featured := false,
    pendingReview := false, featureReason := [], reelly_status := reelly,
    lastFeaturedAt := none, completePropertyData := none,
    lastFetchedAt := fetched, cacheExpiresAt := expires }

/-- A concrete upstream detail payload used in witnesses. -/
def sampleDetail : PropertyDetail :=
  { id := 123, name := some "T", area := some "Downtown Dubai",
    developer := some "Dev", status := none, sale_status := none,
    is_partner_project := some true, min_price := some 500000,
    max_price := some 900000, facilities := 15, architecture := 0 }

/-- C8: `analyzeFeaturingPotential` is pure in the upstream detail: the
candidate signal set it contributes is `computeFeatureReasons d`, a function
of the detail alone; it only unions signals into `featureReason` (membership
after = membership before ∨ membership in the computed set, so no recorded
signal is ever removed), and it leaves `status`, `featured` and
`lastFeaturedAt` untouched. -/
theorem featureSignals_pure_monotone (p : PropertyRecord) (d : PropertyDetail) :
    (analyzeFeaturingPotential p d).status = p.status ∧
    (analyzeFeaturingPotential p d).featured = p.featured ∧
    (analyzeFeaturingPotential p d).lastFeaturedAt = p.lastFeaturedAt ∧
    ∀ s : String, s ∈ (analyzeFeaturingPotential p d).featureReason ↔
      s ∈ p.featureReason ∨ s ∈ computeFeatureReasons d :=
  ⟨analyzeFeaturingPotential_status p d, analyzeFeaturingPotential_featured p d,
   analyzeFeaturingPotential_lastFeaturedAt p d,
   fun s => analyzeFeaturingPotential_featureReason_mem p d s⟩

/-- A stored record that already carries a recorded signal. -/
def c8record : PropertyRecord :=
  { baseRecord 123 true 0 10 with featureReason := ["old_signal"] }

/-- Witness for C8 at a concrete record and detail payload. -/
theorem featureSignals_pure_monotone_witness :
    (analyzeFeaturingPotential c8record sampleDetail).status = c8record.status ∧
    ("old_signal" ∈ (analyzeFeaturingPotential c8record sampleDetail).featureReason ↔
      "old_signal" ∈ c8record.featureReason ∨
        "old_signal" ∈ computeFeatureReasons sampleDetail) :=
  ⟨(featureSignals_pure_monotone c8record sampleDetail).1,
   (featureSignals_pure_monotone c8record sampleDetail).2.2.2 "old_signal"⟩

/-- C5: the staleness sweep maps `sweepRecord` over the store; a record comes
out with `reelly_status = false` exactly when it already was `false` or its
`externalId` is missing from the identifier list collected this cycle, and
every record whose `externalId` is in the collected list is left completely
unchanged. -/
theorem staleness_sweep_exact (store : List PropertyRecord) (ids : List Nat)
    (now : Int) (p : PropertyRecord) :
    markInactiveProperties store ids now = store.map (sweepRecord ids now) ∧
    ((sweepRecord ids now p).reelly_status = false ↔
      (p.reelly_status = false ∨ p.externalId ∉ ids)) ∧
    (p.externalId ∈ ids → sweepRecord ids now p = p) := by
  refine ⟨rfl, ?_, ?_⟩
  · unfold sweepRecord shouldMarkInactive
    by_cases hr : p.reelly_status <;> by_cases hc : p.externalId ∈ ids <;>
      simp [hr, hc]
  · intro hin
    unfold sweepRecord shouldMarkInactive
    simp [hin]

def c5rec1 : PropertyRecord := baseRecord 1 true 0 10

def c5rec2 : PropertyRecord := baseRecord 2 true 0 10

def c5rec3 : PropertyRecord := baseRecord 3 true 0 10

/-- Witness for C5: the spec scenario — stored ids 1,2,3 all present, the
cycle collects [1,3]; id 2 flips to `reelly_status = false`, ids 1 and 3
are unchanged. -/
theorem staleness_sweep_witness :
    (sweepRecord [1, 3] 20 c5rec2).reelly_status = false ∧
    sweepRecord [1, 3] 20 c5rec1 = c5rec1 ∧
    sweepRecord [1, 3] 20 c5rec3 = c5rec3 :=
  ⟨(staleness_sweep_exact [c5rec1, c5rec2, c5rec3] [1, 3] 20 c5rec2).2.1.mpr
      (Or.inr (by decide)),
   (staleness_sweep_exact [c5rec1, c5rec2, c5rec3] [1, 3] 20 c5rec1).2.2 (by decide),
   (staleness_sweep_exact [c5rec1, c5rec2, c5rec3] [1, 3] 20 c5rec3).2.2 (by decide)⟩

/-- C6: when the detail fetch actually happens (record absent or expired) and
returns 404 (`null`), `processProperty` completes normally: the store is
unchanged (no record created, none modified) and only `totalProcessed` is
bumped — in particular `errors` is unchanged. -/
theorem reconcile_notFound_benign (store : List PropertyRecord) (pid : Nat)
    (stats : SyncStats) (now : Int)
    (hfetch : detailFetchOccurs store pid now = true) :
    processProperty store pid stats .notFound now =
      .ok store { stats with totalProcessed := stats.totalProcessed + 1 } := by
  unfold processProperty
  unfold detailFetchOccurs at hfetch
  cases hfind : findByExternalId store pid with
  | none => simp [hfind]
  | some existing =>
    rw [hfind] at hfetch
    simp only at hfetch
    simp [hfind, hfetch]

def c6rec : PropertyRecord := baseRecord 5 true 0 10

def stats0 : SyncStats := ⟨0, 0, 0, 0, 0, 0⟩

/-- Witness for C6: id 5 exists but is expired at time 20; the detail fetch
404s and reconcile returns with the store intact and errors still 0. -/
theorem reconcile_notFound_witness :
    processProperty [c6rec] 5 stats0 .notFound 20 =
      .ok [c6rec] { stats0 with totalProcessed := 1 } :=
  reconcile_notFound_benign [c6rec] 5 stats0 20 (by decide)

def c9rec : PropertyRecord := baseRecord 9 true 0 10

/-- C9 counterexample: a record with `cacheExpiresAt = 10` absent from
the collected list is swept at time 20; the sweep writes
`lastFetchedAt := 20` without touching `cacheExpiresAt`, so afterwards
`cacheExpiresAt > lastFetchedAt` fails. -/
theorem cache_invariant_cex :
    (sweepRecord [] 20 c9rec).lastFetchedAt = 20 ∧
    (sweepRecord [] 20 c9rec).cacheExpiresAt = 10 ∧
    ¬ ((sweepRecord [] 20 c9rec).cacheExpiresAt >
        (sweepRecord [] 20 c9rec).lastFetchedAt) := by
  refine ⟨rfl, rfl, by decide⟩

/-- C9 amended: creation and update (via `refreshCache(24)`) do establish
`cacheExpiresAt = lastFetchedAt + 24h > lastFetchedAt`, and a record is
stale exactly when `now > cacheExpiresAt`; but the staleness sweep and the
reactivate-on-skip path refresh `lastFetchedAt` without touching
`cacheExpiresAt`, so the sweep preserves only the expiry value (and can leave
`cacheExpiresAt ≤ lastFetchedAt` on an already-expired record) and
reactivation guarantees merely `cacheExpiresAt ≥ lastFetchedAt`. -/
theorem cache_invariant_amended (d : PropertyDetail) (p : PropertyRecord)
    (ids : List Nat) (now now2 : Int) :
    (createProperty d now).cacheExpiresAt > (createProperty d now).lastFetchedAt ∧
    (updateProperty p d now).cacheExpiresAt > (updateProperty p d now).lastFetchedAt ∧
    (sweepRecord ids now p).cacheExpiresAt = p.cacheExpiresAt ∧
    (isExpired p now2 = true ↔ now2 > p.cacheExpiresAt) ∧
    (isExpired p now = false →
      (reactivateOnSkip p now).cacheExpiresAt ≥ (reactivateOnSkip p now).lastFetchedAt) := by
  refine ⟨?_, ?_, ?_, ?_, ?_⟩
  · unfold createProperty
    rw [(analyzeFeaturingPotential_timestamps _ _).1,
        (analyzeFeaturingPotential_timestamps _ _).2]
    show now + 24 * 60 * 60 * 1000 > now
    omega
  · unfold updateProperty
    rw [(analyzeFeaturingPotential_timestamps _ _).1,
        (analyzeFeaturingPotential_timestamps _ _).2]
    show now + 24 * 60 * 60 * 1000 > now
    omega
  · unfold sweepRecord
    by_cases h : shouldMarkInactive ids p <;> simp [h]
  · simp [isExpired]
  · intro hfresh
    unfold isExpired at hfresh
    simp only [decide_eq_false_iff_not, not_lt] at hfresh
    show p.cacheExpiresAt ≥ now
    omega

/-- Witness for C9 amended: a freshly created record satisfies the strict
invariant, and reactivating a non-expired record keeps expiry at or after
the fetch timestamp. -/
theorem cache_invariant_amended_witness :
    (createProperty sampleDetail 0).cacheExpiresAt >
      (createProperty sampleDetail 0).lastFetchedAt ∧
    (reactivateOnSkip c9rec 5).cacheExpiresAt ≥ (reactivateOnSkip c9rec 5).lastFetchedAt :=
  ⟨(cache_invariant_amended sampleDetail c9rec [] 0 0).1,
   (cache_invariant_amended sampleDetail c9rec [] 5 0).2.2.2.2 (by decide)⟩

/-- Model of `propertyCount` in `shouldSkipSync`: stored records with
`status: "active"` and `reelly_status: true`. -/
def countActiveRecognized (store : List PropertyRecord) : Nat :=
  (store.filter (fun p => p.status == "active" && p.reelly_status)).length

/-- Model of `recentPropertiesCount` in `shouldSkipSync`: active recognised records
with `lastFetchedAt` within the last 24 hours (`$gte: oneDayAgo`). -/
def countRecentActive (store : List PropertyRecord) (now : Int) : Nat :=
  (store.filter (fun p => p.status == "active" && p.reelly_status &&
     decide (p.lastFetchedAt ≥ now - 24 * 60 * 60 * 1000))).length

/-- Model of `PropertySyncService.shouldSkipSync` (the decision only; the human
readable reason strings are dropped, and the JS floating-point percentage
`recentCount / propertyCount * 100` is modelled by exact rationals). -/
def shouldSkipSync (store : List PropertyRecord) (now : Int) : Bool :=
  let propertyCount := countActiveRecognized store
  if propertyCount = 0 then false
  else
    let recentCount := countRecentActive store now
    if recentCount = 0 then false
    else
      let recentPercentage : ℚ := (recentCount : ℚ) / (propertyCount : ℚ) * 100
      if recentPercentage < 80 then false else true

/-- C7: with at least one active recognised record, the skip-if-recent check
skips exactly when the fraction of active records fetched within the last 24
hours is at least 80% of the active total. -/
theorem shouldSkipSync_iff_coverage (store : List PropertyRecord) (now : Int)
    (h : 0 < countActiveRecognized store) :
    shouldSkipSync store now = true ↔
      (countRecentActive store now : ℚ) / (countActiveRecognized store : ℚ) ≥ 80 / 100 := by
  have ht : countActiveRecognized store ≠ 0 := Nat.pos_iff_ne_zero.mp h
  have htq : (0 : ℚ) < (countActiveRecognized store : ℚ) := by
    exact_mod_cast h
  unfold shouldSkipSync
  simp only [ht, if_false]
  by_cases hr : countRecentActive store now = 0
  · simp only [hr, if_pos rfl]
    constructor
    · intro hfalse
      exact absurd hfalse (by simp)
    · intro hge
      exfalso
      simp only [Nat.cast_zero, zero_div] at hge
      linarith
  · rw [if_neg hr]
    set x : ℚ := (countRecentActive store now : ℚ) / (countActiveRecognized store : ℚ) with hx
    by_cases hlt : x * 100 < 80
    · simp only [if_pos hlt]
      constructor
      · intro hfalse
        exact absurd hfalse (by simp)
      · intro hge
        exfalso
        linarith
    · simp only [if_neg hlt]
      push_neg at hlt
      constructor
      · intro _h
        linarith
      · intro _h
        trivial

def c7old : PropertyRecord := baseRecord 10 true 0 86400000

def c7store : List PropertyRecord :=
  [baseRecord 1 true 100 86400100, baseRecord 2 true 100 86400100,
   baseRecord 3 true 100 86400100, baseRecord 4 true 100 86400100, c7old]

/-- Witness for C7: five active records, four fetched within the last 24h at
time 86400050 (coverage 80%), so the cycle is skipped. -/
theorem shouldSkipSync_witness : shouldSkipSync c7store 86400050 = true := by
  have hr : countRecentActive c7store 86400050 = 4 := by decide
  have ht : countActiveRecognized c7store = 5 := by decide
  refine (shouldSkipSync_iff_coverage c7store 86400050 ?_).mpr ?_
  · rw [ht]; decide
  · rw [hr, ht]; norm_num

/-- What one `axios.get` call produces under `validateStatus: status < 500`:
a resolved response with its HTTP status, or a rejection (network failure,
timeout, or a 5xx that `validateStatus` turned into an error). -/
inductive AttemptOutcome where
  | response (status : Nat)
  | netError (msg : String)
deriving DecidableEq

/-- The errors `makeApiRequest` can surface. -/
inductive ApiError where
  | authFailed (status : Nat)
  | notFoundErr (status : Nat)
  | requestFailed (status : Nat)
  | network (msg : String)
  | maxRetriesExceeded
deriving DecidableEq

/-- The retry loop body of `PropertySyncService.makeApiRequest`, indexed by
the attempt number and the remaining loop iterations
(`remaining = maxRetries - attempt + 1`; `remaining = 0` means the `for`
condition failed, reaching `throw new Error("Max retries exceeded")`).
Every thrown classification — including 401/403 — is caught by the generic
`catch`, which rethrows only on the final attempt and otherwise sleeps and
retries; a 429 skips the catch via `continue`. The second component counts
the HTTP attempts actually performed. -/
def retryGo (outcomes : Nat → AttemptOutcome) : Nat → Nat → Except ApiError Nat × Nat
  | _, 0 => (.error .maxRetriesExceeded, 0)
  | attempt, remaining + 1 =>
    match outcomes attempt with
    | .response s =>
      if 200 ≤ s ∧ s < 300 then (.ok s, 1)
      else if s = 401 ∨ s = 403 then
        if remaining = 0 then (.error (.authFailed s), 1)
        else
          let r := retryGo outcomes (attempt + 1) remaining
          (r.1, r.2 + 1)
      else if s = 404 then
        if remaining = 0 then (.error (.notFoundErr s), 1)
        else
          let r := retryGo outcomes (attempt + 1) remaining
          (r.1, r.2 + 1)
      else if s = 429 then
        let r := retryGo outcomes (attempt + 1) remaining
        (r.1, r.2 + 1)
      else
        if remaining = 0 then (.error (.requestFailed s), 1)
        else
          let r := retryGo outcomes (attempt + 1) remaining
          (r.1, r.2 + 1)
    | .netError m =>
      if remaining = 0 then (.error (.network m), 1)
      else
        let r := retryGo outcomes (attempt + 1) remaining
        (r.1, r.2 + 1)

/-- Model of `PropertySyncService.makeApiRequest` with `maxRetries` attempts: returns
the surfaced result and the number of HTTP attempts performed. -/
def makeApiRequest (outcomes : Nat → AttemptOutcome) (maxRetries : Nat) :
    Except ApiError Nat × Nat :=
  retryGo outcomes 1 maxRetries

/-- C2 counterexample: the first attempt returns HTTP 401, yet the wrapper
retries — the second attempt returns 200 and the whole call SUCCEEDS after
2 attempts, so a 401 is neither terminal nor retry-free. -/
theorem auth_retry_cex :
    makeApiRequest (fun n => if n = 1 then .response 401 else .response 200) 3 =
      (.ok 200, 2) := rfl

theorem retryGo_all_auth (outcomes : Nat → AttemptOutcome)
    (hall : ∀ n, ∃ s, outcomes n = .response s ∧ (s = 401 ∨ s = 403)) :
    ∀ remaining attempt, 0 < remaining →
      ∃ s, retryGo outcomes attempt remaining = (.error (.authFailed s), remaining) ∧
        (s = 401 ∨ s = 403) := by
  intro remaining
  induction remaining with
  | zero => intro attempt h; exact absurd h (by simp)
  | succ r ih =>
    intro attempt _
    obtain ⟨s, hs, hcase⟩ := hall attempt
    cases hcase with
    | inl h401 =>
      subst h401
      cases r with
      | zero =>
        refine ⟨401, ?_, Or.inl rfl⟩
        unfold retryGo
        rw [hs]
        norm_num
      | succ r2 =>
        obtain ⟨s2, hs2, hc2⟩ := ih (attempt + 1) (Nat.succ_pos r2)
        refine ⟨s2, ?_, hc2⟩
        unfold retryGo
        rw [hs]
        norm_num
        rw [hs2]
        exact ⟨rfl, rfl⟩
    | inr h403 =>
      subst h403
      cases r with
      | zero =>
        refine ⟨403, ?_, Or.inr rfl⟩
        unfold retryGo
        rw [hs]
        norm_num
      | succ r2 =>
        obtain ⟨s2, hs2, hc2⟩ := ih (attempt + 1) (Nat.succ_pos r2)
        refine ⟨s2, ?_, hc2⟩
        unfold retryGo
        rw [hs]
        norm_num
        rw [hs2]
        exact ⟨rfl, rfl⟩

/-- C2 amended: an HTTP 401/403 response makes that attempt throw an
authentication error, but the wrapper treats it like any other failure: it
keeps retrying, and only when every one of the `maxRetries` attempts has
answered 401/403 does the call surface `authFailed` — after performing all
`maxRetries` HTTP attempts, not one. -/
theorem auth_retried_until_exhaustion (outcomes : Nat → AttemptOutcome)
    (maxRetries : Nat) (hpos : 0 < maxRetries)
    (hall : ∀ n, ∃ s, outcomes n = .response s ∧ (s = 401 ∨ s = 403)) :
    ∃ s, makeApiRequest outcomes maxRetries = (.error (.authFailed s), maxRetries) ∧
      (s = 401 ∨ s = 403) :=
  retryGo_all_auth outcomes hall maxRetries 1 hpos

/-- Witness for the amended C2: three straight 401 responses surface
`authFailed 401` only after all 3 attempts. -/
theorem auth_retried_until_exhaustion_witness :
    makeApiRequest (fun _ => .response 401) 3 = (.error (.authFailed 401), 3) := by
  obtain ⟨s, hs, hcase⟩ := auth_retried_until_exhaustion (fun _ => .response 401) 3
    (by decide) (fun n => ⟨401, rfl, Or.inl rfl⟩)
  cases hcase with
  | inl h => rw [h] at hs; exact hs
  | inr h =>
    rw [h] at hs
    have hval : makeApiRequest (fun _ => .response 401) 3 =
        (.error (.authFailed 401), 3) := rfl
    rw [hval] at hs
    simp at hs

/-- Pagination metadata of a listing page (`data.pagination`). -/
structure PagInfo where
  has_next : Bool
  pages : Nat
deriving DecidableEq

/-- One listing page as extracted by `fetchAllPropertyIds` (`data.items` /
`data.data` / bare array all normalise to the id list; a summary whose `id`
is missing or 0 is falsy in JS and modelled as the value 0). -/
structure PageData where
  items : List Nat
  pagination : Option PagInfo
deriving DecidableEq

/-- Outcome of fetching one listing page through `makeApiRequest` (after its
internal retries): page data, an error whose message contains "404", or any
other error. -/
inductive PageFetch where
  | ok (d : PageData)
  | err404 (msg : String)
  | errOther (msg : String)
deriving DecidableEq

/-- Result of the pagination walk: the collected id list, a propagated
throw (the ids gathered so far are discarded), or fuel exhaustion (the
real loop would still be running). -/
inductive WalkResult where
  | ok (ids : List Nat)
  | err (msg : String)
  | outOfFuel
deriving DecidableEq

/-- The `hasMorePages` update after a non-empty page: pagination metadata
(`has_next || currentPage < pages`) if present, else the full-page
heuristic (`properties.length >= 50`). -/
def pageHasMore (d : PageData) (currentPage : Nat) : Bool :=
  match d.pagination with
  | some pag => pag.has_next || decide (currentPage < pag.pages)
  | none => decide (d.items.length ≥ 50)

/-- The `while (hasMorePages)` loop of
`PropertySyncService.fetchAllPropertyIds`, with the upstream pages given by
the oracle `pages` and an explicit fuel bound on the number of iterations.
An empty page stops the walk; a caught error whose message includes "404"
stops the walk returning what was collected; any other error is rethrown,
discarding the accumulator. Ids are appended page by page — there is no
deduplication step. -/
def fetchAllGo (pages : Nat → PageFetch) : Nat → List Nat → Nat → WalkResult
  | _, _, 0 => .outOfFuel
  | currentPage, acc, fuel + 1 =>
    match pages currentPage with
    | .err404 _ => .ok acc
    | .errOther m => .err m
    | .ok d =>
      if d.items.length = 0 then .ok acc
      else
        let pageIds := d.items.filter (fun i => i != 0)
        let acc2 := acc ++ pageIds
        if pageHasMore d currentPage then fetchAllGo pages (currentPage + 1) acc2 fuel
        else .ok acc2

/-- Model of `PropertySyncService.fetchAllPropertyIds`: walk from page 1 with an
empty accumulator. -/
def fetchAllPropertyIds (pages : Nat → PageFetch) (fuel : Nat) : WalkResult :=
  fetchAllGo pages 1 [] fuel

/-- Upstream pages for the C3 counterexample: page 1 succeeds with ids
[1, 2] and announces a next page; page 2 fails after retries with a plain
network error (a retryable class, exhausted). -/
def c3pages : Nat → PageFetch := fun p =>
  if p = 1 then .ok { items := [1, 2], pagination := some { has_next := true, pages := 2 } }
  else .errOther "Network Error"

/-- C3 counterexample: the first page was fetched successfully, yet a
retryable failure on the SECOND page aborts the whole walk with the error —
the partial result [1, 2] is not returned. -/
theorem walk_abort_cex :
    fetchAllPropertyIds c3pages 10 = .err "Network Error" ∧
    fetchAllPropertyIds c3pages 10 ≠ .ok [1, 2] := by
  refine ⟨rfl, ?_⟩
  intro hcontra
  have hval : fetchAllPropertyIds c3pages 10 = .err "Network Error" := rfl
  rw [hval] at hcontra
  exact WalkResult.noConfusion hcontra

/-- C3 amended: at whatever page the walk first sees a failed fetch, an
error without "404" in its message aborts the walk and propagates
(discarding every id already collected), regardless of whether it is the
first page; only an error marked 404 ends the walk gracefully, returning
exactly the ids collected so far. -/
theorem walk_abort_vs_404 (pages : Nat → PageFetch) (page : Nat)
    (acc : List Nat) (fuel : Nat) (m : String) (hfuel : 0 < fuel) :
    (pages page = .errOther m → fetchAllGo pages page acc fuel = .err m) ∧
    (pages page = .err404 m → fetchAllGo pages page acc fuel = .ok acc) := by
  cases fuel with
  | zero => exact absurd hfuel (by simp)
  | succ f =>
    constructor
    · intro hp
      unfold fetchAllGo
      rw [hp]
    · intro hp
      unfold fetchAllGo
      rw [hp]

/-- Witness for the amended C3: with ids [1, 2] already collected, a
network error on page 2 aborts, while a 404 there would have returned
[1, 2]. -/
theorem walk_abort_vs_404_witness :
    fetchAllGo c3pages 2 [1, 2] 9 = .err "Network Error" ∧
    fetchAllGo (fun _ => .err404 "Resource not found: 404 Not Found") 2 [1, 2] 9 =
      .ok [1, 2] :=
  ⟨(walk_abort_vs_404 c3pages 2 [1, 2] 9 "Network Error" (by decide)).1 rfl,
   (walk_abort_vs_404 (fun _ => .err404 "Resource not found: 404 Not Found") 2 [1, 2] 9
      "Resource not found: 404 Not Found" (by decide)).2 rfl⟩

/-- Upstream pages for the C4 counterexample: id 2 appears on both pages. -/
def c4pages : Nat → PageFetch := fun p =>
  if p = 1 then .ok { items := [1, 2], pagination := some { has_next := true, pages := 2 } }
  else if p = 2 then .ok { items := [2, 3], pagination := some { has_next := false, pages := 2 } }
  else .ok { items := [], pagination := none }

/-- C4 counterexample: an id listed on two pages is collected twice —
`fetchAllPropertyIds` performs no deduplication, so the result is
[1, 2, 2, 3], in which 2 appears twice. -/
theorem walk_no_dedup_cex :
    fetchAllPropertyIds c4pages 10 = .ok [1, 2, 2, 3] ∧
    ¬ ([1, 2, 2, 3] : List Nat).Nodup := by
  exact ⟨rfl, by decide⟩

/-- A two-page upstream listing followed by an empty page, used to state the
amended C4 (both non-empty pages advertise a next page, as in the repo test
fixtures). -/
def twoPageListing (xs ys : List Nat) : Nat → PageFetch
  | 1 => .ok { items := xs, pagination := some { has_next := true, pages := 3 } }
  | 2 => .ok { items := ys, pagination := some { has_next := true, pages := 3 } }
  | _ => .ok { items := [], pagination := none }

/-- C4 amended: the walk returns the order-preserving concatenation of the
(non-zero) ids of each page in observation order, with no deduplication; in
particular the spec scenario (pages [1,2] and [3,4], then an empty page)
yields [1, 2, 3, 4]. -/
theorem walk_concat_order (xs ys : List Nat) (hxs : xs ≠ []) (hys : ys ≠ []) :
    fetchAllPropertyIds (twoPageListing xs ys) 3 =
      .ok (xs.filter (fun i => i != 0) ++ ys.filter (fun i => i != 0)) := by
  have hxl : ¬ (xs.length = 0) := fun h => hxs (List.length_eq_zero.mp h)
  have hyl : ¬ (ys.length = 0) := fun h => hys (List.length_eq_zero.mp h)
  unfold fetchAllPropertyIds
  unfold fetchAllGo
  simp only [twoPageListing]
  rw [if_neg hxl]
  simp only [pageHasMore, Bool.true_or]
  simp only [if_true]
  unfold fetchAllGo
  simp only [twoPageListing]
  rw [if_neg hyl]
  simp only [pageHasMore, Bool.true_or]
  simp only [if_true]
  unfold fetchAllGo
  simp only [twoPageListing]
  simp

/-- Witness for the amended C4: the spec scenario — pages [1,2], [3,4],
then empty — returns [1, 2, 3, 4]. -/
theorem walk_concat_order_witness :
    fetchAllPropertyIds (twoPageListing [1, 2] [3, 4]) 3 = .ok [1, 2, 3, 4] :=
  walk_concat_order [1, 2] [3, 4] (by decide) (by decide)

theorem mem_replaceById (store : List PropertyRecord) (pid : Nat)
    (v q : PropertyRecord) (hq : q ∈ replaceById store pid v) :
    q = v ∨ q ∈ store := by
  unfold replaceById at hq
  obtain ⟨r, hr, hqr⟩ := List.mem_map.mp hq
  by_cases h : r.externalId == pid
  · rw [if_pos h] at hqr
    exact Or.inl hqr.symm
  · rw [if_neg h] at hqr
    exact Or.inr (hqr ▸ hr)

theorem updateProperty_reelly (p : PropertyRecord) (d : PropertyDetail) (now : Int) :
    (updateProperty p d now).reelly_status = true := by
  unfold updateProperty
  rw [analyzeFeaturingPotential_reelly]
  rfl

theorem createProperty_reelly (d : PropertyDetail) (now : Int) :
    (createProperty d now).reelly_status = true := by
  unfold createProperty
  rw [analyzeFeaturingPotential_reelly]
  rfl

/-- The premium-area list of `PropertyService.applyFeatureRules` (the
single-property read path; note: no "Business Bay" here). -/
def premiumAreasRules : List String :=
  ["Downtown Dubai", "Dubai Marina", "Palm Jumeirah", "DIFC"]

/-- The document built by `PropertyService.saveOrUpdatePropertyWithNewSchema`
before `applyFeatureRules` mutates it (min/max price are copied through
directly, string fields take their JS `||` defaults). -/
def newSchemaBase (pid : Nat) (d : PropertyDetail) (now : Int) : PropertyRecord :=
  { externalId := pid
    name := jsOrStr d.name "Unknown Property"
    area := jsOrStr d.area "Unknown Area"
    developer := jsOrStr d.developer "Unknown Developer"
    is_partner_project := d.is_partner_project = some true
    min_price := d.min_price
    max_price := d.max_price
    sale_status := jsOrStr d.sale_status "Available"
    status := "active"
    featured := false
    pendingReview := false
    featureReason := []
    reelly_status := true
    lastFeaturedAt := none
    completePropertyData := some d
    lastFetchedAt := now
    cacheExpiresAt := now + 24 * 60 * 60 * 1000 }

/-- The rule set of `PropertyService.applyFeatureRules`, evaluated on the
freshly built document (whose `area` is already defaulted and whose
`completePropertyData` is the raw detail), in source order. -/
def applyFeatureRulesReasons (r : PropertyRecord) (d : PropertyDetail) : List String :=
  (if (match r.min_price with
       | some v => decide (v ≠ 0) && decide (v ≥ 1000000)
       | none => false)
   then ["min_price_aed >= 1000000"] else []) ++
  (if r.is_partner_project then ["is_partner_project"] else []) ++
  (if d.facilities ≥ 10 then ["facilities.length >= 10"] else []) ++
  (if premiumAreasRules.any (fun pa => strContains r.area pa)
   then ["premium_area"] else [])

/-- Model of `PropertyService.applyFeatureRules`: if any rule matched, the document is
marked featured and pending review with the matched reasons. -/
def applyFeatureRules (r : PropertyRecord) (d : PropertyDetail) (now : Int) : PropertyRecord :=
  let reasons := applyFeatureRulesReasons r d
  if reasons.isEmpty then r
  else { r with featured := true, pendingReview := true,
                featureReason := reasons, lastFeaturedAt := some now }

/-- Model of `PropertyService.saveOrUpdatePropertyWithNewSchema`: build the document,
apply the feature rules, and `findOneAndUpdate({externalId}, {$set}, upsert)`. -/
def saveOrUpdateNewSchema (store : List PropertyRecord) (pid : Nat)
    (d : PropertyDetail) (now : Int) : List PropertyRecord :=
  let doc := applyFeatureRules (newSchemaBase pid d now) d now
  match findByExternalId store pid with
  | some _ => replaceById store pid doc
  | none => store ++ [doc]

/-- What `fetchPropertyFromReallyAPI(id)` produced: a payload, `null`
(HTTP 404 or a body without an id), or a rethrown error. -/
inductive FetchApiResult where
  | found (d : PropertyDetail)
  | nullResult
  | errorThrown (msg : String)
deriving DecidableEq

/-- Which branch of `PropertyService.getPropertyById` answered. -/
inductive GetPropertyOutcome where
  | fromDb
  | fromApi
  | markedInactive
  | notFoundAnywhere
  | failed
deriving DecidableEq

/-- Model of `PropertyService.getPropertyById` (part_005, new schema): serve fresh
records with `reelly_status` from the store; otherwise consult the API; on a
`null` API answer for a record that exists in the store, flip
`reelly_status := false` and `status := "disabled"` and save; errors are
swallowed by the outer catch with no store change. -/
def getPropertyById (store : List PropertyRecord) (pid : Nat)
    (api : FetchApiResult) (now : Int) : GetPropertyOutcome × List PropertyRecord :=
  match findByExternalId store pid with
  | some existing =>
    if !(isExpired existing now) && existing.reelly_status then
      (.fromDb, store)
    else
      match api with
      | .errorThrown _ => (.failed, store)
      | .found d => (.fromApi, saveOrUpdateNewSchema store pid d now)
      | .nullResult =>
        (.markedInactive,
         replaceById store pid { existing with reelly_status := false, status := "disabled" })
  | none =>
    match api with
    | .errorThrown _ => (.failed, store)
    | .found d => (.fromApi, saveOrUpdateNewSchema store pid d now)
    | .nullResult => (.notFoundAnywhere, store)

def c1rec : PropertyRecord := baseRecord 7 true 0 10

/-- C1 counterexample: a single-record read (`getPropertyById`) whose detail
fetch returns 404 flips the stored record to `reelly_status = false` — the
flag is not only set by the staleness sweep. -/
theorem reelly_flag_cex :
    ((getPropertyById [c1rec] 7 .nullResult 20).2.find?
        (fun r => r.externalId == 7)).map PropertyRecord.reelly_status = some false ∧
    (getPropertyById [c1rec] 7 .nullResult 20).1 = .markedInactive :=
  ⟨rfl, rfl⟩

/-- C1 amended: `reelly_status := false` is written by the staleness sweep
AND by the single-property read path `getPropertyById` when the detail fetch
for an existing record returns null — there it also disables the record;
within the reconciler of the sync engine (`processProperty`) no path ever
sets the flag false: any record inactive after a reconcile call was already
inactive (and untouched) before it. -/
theorem reelly_flag_setters (store : List PropertyRecord) (pid : Nat)
    (stats : SyncStats) (detail : DetailResult) (now : Int) (p : PropertyRecord) :
    (findByExternalId store pid = some p → now > p.cacheExpiresAt →
      getPropertyById store pid .nullResult now =
        (.markedInactive,
         replaceById store pid { p with reelly_status := false, status := "disabled" })) ∧
    (∀ q ∈ outcomeStore (processProperty store pid stats detail now),
      q.reelly_status = false → q ∈ store) := by
  constructor
  · intro hfind hexp
    unfold getPropertyById
    rw [hfind]
    have hexpb : isExpired p now = true := by
      unfold isExpired
      exact decide_eq_true hexp
    simp [hexpb]
  · intro q hq hfalse
    unfold processProperty at hq
    cases hfind2 : findByExternalId store pid with
    | none =>
      rw [hfind2] at hq
      cases detail with
      | apiError m => simpa [outcomeStore] using hq
      | notFound => simpa [outcomeStore] using hq
      | found d =>
        simp only [outcomeStore] at hq
        rcases List.mem_append.mp hq with h | h
        · exact h
        · exfalso
          rw [List.mem_singleton] at h
          rw [h, createProperty_reelly] at hfalse
          simp at hfalse
    | some existing =>
      rw [hfind2] at hq
      dsimp only at hq
      by_cases hexp2 : isExpired existing now = false
      · rw [if_pos hexp2] at hq
        by_cases hre : existing.reelly_status = false
        · rw [if_pos hre] at hq
          simp only [outcomeStore] at hq
          rcases mem_replaceById store pid _ q hq with h | h
          · exfalso
            rw [h] at hfalse
            simp [reactivateOnSkip] at hfalse
          · exact h
        · rw [if_neg hre] at hq
          simpa [outcomeStore] using hq
      · rw [if_neg hexp2] at hq
        cases detail with
        | apiError m => simpa [outcomeStore] using hq
        | notFound => simpa [outcomeStore] using hq
        | found d =>
          simp only [outcomeStore] at hq
          rcases mem_replaceById store pid _ q hq with h | h
          · exfalso
            rw [h, updateProperty_reelly] at hfalse
            simp at hfalse
          · exact h

/-- Witness for the amended C1: the concrete expired record of the
counterexample is disabled and marked absent by the read path. -/
theorem reelly_flag_setters_witness :
    getPropertyById [c1rec] 7 .nullResult 20 =
      (.markedInactive,
       replaceById [c1rec] 7 { c1rec with reelly_status := false, status := "disabled" }) :=
  (reelly_flag_setters [c1rec] 7 stats0 .notFound 20 c1rec).1 rfl (by decide)
